import Mathlib

/-!
Verification of checkmyreqs.py against its specification.

The embedding is shallow: each Python function of checkmyreqs.py is
translated into a Lean definition over `String` and `List`, and the
remote package index (the xmlrpc CLIENT) is modelled as an explicit
record of two functions.  Python string primitives used by the script
(`strip`, `startswith`, `split`) are reimplemented structurally over
`String.data` so that all definitions evaluate by kernel reduction.
-/

namespace Checkmyreqs

/-- Python `str.strip` whitespace set (ASCII part: space, tab, newline,
carriage return, vertical tab, form feed). -/
def isPySpace (c : Char) : Bool :=
  c = ' ' || c = '\t' || c = '\n' || c = '\r' || c = '\x0b' || c = '\x0c'

/-- Python `str.strip`: remove leading and trailing whitespace. -/
def pyStrip (s : String) : String :=
  ⟨((s.data.dropWhile isPySpace).reverse.dropWhile isPySpace).reverse⟩

/-- Python `str.startswith`. -/
def pyStartsWith (s pat : String) : Bool :=
  pat.data.isPrefixOf s.data

/-- Python `str.split(sep)` for a single-character separator: splits at every
occurrence, keeping empty chunks (so the result is never empty). -/
def splitOnChar (sep : Char) : List Char → List (List Char)
  | [] => [[]]
  | c :: rest =>
    if c = sep then [] :: splitOnChar sep rest
    else
      match splitOnChar sep rest with
      | [] => [[c]]
      | chunk :: chunks => (c :: chunk) :: chunks

def pySplitChar (sep : Char) (s : String) : List String :=
  (splitOnChar sep s.data).map (fun cs => ⟨cs⟩)

/-- Python `str.split("==")`: non-overlapping occurrences, scanned left to
right, empty chunks kept. -/
def splitOnEqEq : List Char → List (List Char)
  | [] => [[]]
  | '=' :: '=' :: rest => [] :: splitOnEqEq rest
  | c :: rest =>
    match splitOnEqEq rest with
    | [] => [[c]]
    | chunk :: chunks => (c :: chunk) :: chunks

def pySplitEqEq (s : String) : List String :=
  (splitOnEqEq s.data).map (fun cs => ⟨cs⟩)

/-- checkmyreqs.py line 34. -/
def IGNORED_PREFIXES : List String := ["#", "git+", "hg+", "svn+", "bzr+", "\n", "\r\n"]

/-- The skip test of the parser loop (lines 48-51): Python's
`if not line or line.startswith(prefix)` over `IGNORED_PREFIXES`;
`l` is the already-stripped line. -/
def skipLine (l : String) : Bool :=
  l.data.isEmpty || IGNORED_PREFIXES.any (fun p => pyStartsWith l p)

/-- Python dict assignment `d[k] = v`: replace the value in place when the
key is present, append the pair otherwise (insertion order preserved). -/
def dictInsert (d : List (String × String)) (k v : String) : List (String × String) :=
  if d.any (fun q => q.1 == k) then
    d.map (fun q => if q.1 = k then (k, v) else q)
  else d ++ [(k, v)]

/-- Python dict lookup `d[k]` as an option (keys of `dictInsert`-built lists
are unique, so first match is the value). -/
def dictLookup (k : String) : List (String × String) → Option String
  | [] => none
  | q :: rest => if q.1 = k then some q.2 else dictLookup k rest

/-- Outcome of a run of `parse_requirements_file`: a normal return with the
package mapping and the warnings printed on the way, a `sys.exit` with its
message, or an uncaught Python exception. -/
inductive ParseResult where
  | ok (packages : List (String × String)) (warnings : List String)
  | exit (msg : String)
  | exc
deriving DecidableEq

/-- One iteration of the loop body of `parse_requirements_file`
(checkmyreqs.py lines 46-62).  The second `line.strip()` at line 53 is a
no-op on the already-stripped line and is folded into `l`.  The branch on
`'==' in line` together with the two-way unpacking of `line.split('==')`
becomes a match on the chunk list: exactly two chunks record an entry, three
or more raise ValueError (`.exc`), one chunk is the unpinned-line branch. -/
def parseLine (stop_at_error : Bool) (packages : List (String × String))
    (warnings : List String) (line : String) : ParseResult :=
  let l := pyStrip line
  if skipLine l then .ok packages warnings
  else
    match pySplitEqEq l with
    | [package_name, version] => .ok (dictInsert packages package_name version) warnings
    | _ :: _ :: _ => .exc
    | _ =>
      if stop_at_error then .exit (l ++ " does not have a valid version number")
      else .ok packages (warnings ++ [l ++ " does not have a valid version number"])

/-- Thread the loop state: once the run has exited or raised, later lines are
not processed. -/
def parseStep (stop_at_error : Bool) : ParseResult → String → ParseResult
  | .ok p w, line => parseLine stop_at_error p w line
  | st, _ => st

/-- checkmyreqs.py lines 37-64. -/
def parse_requirements_file (req_file : List String) (stop_at_error : Bool) : ParseResult :=
  req_file.foldl (parseStep stop_at_error) (.ok [] [])

/-- The remote package index (the xmlrpc `CLIENT` of checkmyreqs.py line 32),
modelled as two pure lookups.  `release_data name version` stands for the
`classifiers` entry of the release-metadata dictionary (a missing entry is the
empty list, matching `package_info.get('classifiers', [])`); `package_releases
name` is the release list, newest first, empty when the package is unknown. -/
structure PyPI where
  release_data : String → String → List String
  package_releases : String → List String

/-- checkmyreqs.py lines 135-149: collect, for every classifier starting with
the Python marker, the stripped last chunk of `c.split(' ')`. -/
def get_supported_pythons (classifiers : List String) : List String :=
  classifiers.foldl
    (fun versions c =>
      if pyStartsWith c "Programming Language :: Python ::" then
        versions ++ [pyStrip ((pySplitChar ' ' c).getLastD "")]
      else versions)
    []

/-- The per-package verdict of `check_packages`, carrying the
`upgrade_available` suffix exactly as the code builds it. -/
inductive Verdict where
  | compatible
  | notCompatible (upgrade_available : String)
  | versionNotSpecified (upgrade_available : String)
  | notAvailable
deriving DecidableEq

def Verdict.isNotCompatible : Verdict → Bool
  | .notCompatible _ => true
  | _ => false

def Verdict.isVersionNotSpecified : Verdict → Bool
  | .versionNotSpecified _ => true
  | _ => false

def upgradeHint : Verdict → Option String
  | .notCompatible up => some up
  | .versionNotSpecified up => some up
  | _ => none

/-- The loop body of `check_packages` (checkmyreqs.py lines 78-130) for one
package, as the verdict it reaches.  Python's `if package_releases:` is the
match on the release list (the nonempty case binds `package_releases[0]`), and
`if supported_pythons:` is the test against `[]`. -/
def checkPackage (client : PyPI) (python_version package_name package_version : String) :
    Verdict :=
  let package_info := client.release_data package_name package_version
  match client.package_releases package_name with
  | [] => .notAvailable
  | latest_version :: _ =>
    let supported_pythons := get_supported_pythons package_info
    let major_python_version := (pySplitChar '.' python_version).headD ""
    if python_version ∈ supported_pythons then .compatible
    else if major_python_version ∈ supported_pythons then .compatible
    else
      let latest_supported_pythons :=
        get_supported_pythons (client.release_data package_name latest_version)
      if supported_pythons = [] then
        .versionNotSpecified
          (if python_version ∈ latest_supported_pythons then
            " - update to v" ++ latest_version ++ " for explicit support"
          else "")
      else
        .notCompatible
          (if python_version ∈ latest_supported_pythons then
            " - update to v" ++ latest_version ++ " for support"
          else "")

/-- The line printed (lenient mode) or passed to `sys.exit` (strict mode) for
a verdict: the format strings of checkmyreqs.py lines 112-130.  A compatible
package prints nothing (the `print` calls at lines 95 and 98 are commented
out). -/
def verdictMessage (python_version package_name package_version : String) :
    Verdict → Option String
  | .compatible => none
  | .notCompatible up =>
    some (package_name ++ "=" ++ package_version ++ " not compatible with Python "
      ++ python_version ++ up)
  | .versionNotSpecified up =>
    some (package_name ++ "=" ++ package_version ++ " version not specified" ++ up)
  | .notAvailable =>
    some (package_name ++ "=" ++ package_version ++ " not available on pip")

def packageMessage (client : PyPI) (python_version : String) (q : String × String) :
    Option String :=
  verdictMessage python_version q.1 q.2 (checkPackage client python_version q.1 q.2)

/-- One iteration of the `check_packages` loop: a silent package leaves the
state alone, a message either becomes `sys.exit` (strict) or is printed and
appended (lenient); after an exit no further package is processed. -/
def checkStep (client : PyPI) (python_version : String) (stop_at_error : Bool) :
    Except String (List String) → String × String → Except String (List String)
  | .error e, _ => .error e
  | .ok msgs, q =>
    match packageMessage client python_version q with
    | none => .ok msgs
    | some m => if stop_at_error then .error m else .ok (msgs ++ [m])

/-- checkmyreqs.py lines 67-130: `.ok msgs` is a completed run with the lines
it printed, `.error e` is `sys.exit e`. -/
def check_packages (client : PyPI) (packages : List (String × String))
    (python_version : String) (stop_at_error : Bool) : Except String (List String) :=
  packages.foldl (checkStep client python_version stop_at_error) (.ok [])

/-- The version-argument gate of `main` (checkmyreqs.py line 193):
`re.match('^[2-3].[0-9]$', s) is not None`.  The dot in the pattern is
unescaped, so it is the regex wildcard (any character except a newline), and
`$` also matches just before one trailing newline. -/
def versionArgAccepted (s : String) : Bool :=
  match s.data with
  | [c0, c1, c2] => (c0 == '2' || c0 == '3') && !(c1 == '\n') && c2.isDigit
  | [c0, c1, c2, '\n'] => (c0 == '2' || c0 == '3') && !(c1 == '\n') && c2.isDigit
  | _ => false

/-- Modelled from the spec: a target version string in X.Y format where X is
the digit 2 or 3, the dot is a literal dot, and Y is a single digit 0-9. -/
def specVersionFormat (s : String) : Bool :=
  match s.data with
  | [c0, c1, c2] => (c0 == '2' || c0 == '3') && c1 == '.' && c2.isDigit
  | _ => false

/-- One step of the reference fold for claim C8, following the claim's words:
remember the version of the most recent pinned line bearing `name`. -/
def lastPinStep (name : String) (acc : Option String) (line : String) : Option String :=
  if skipLine (pyStrip line) then acc
  else
    match pySplitEqEq (pyStrip line) with
    | [n, v] => if n = name then some v else acc
    | _ => acc

/-- Modelled from the claim's words for C8: the version carried by the last
pinned, non-skipped line of the input whose name part is `name`. -/
def lastPinnedVersion (name : String) (lines : List String) : Option String :=
  lines.foldl (lastPinStep name) none

theorem foldl_parseStep_exit (b : Bool) (m : String) (lines : List String) :
    lines.foldl (parseStep b) (.exit m) = .exit m := by
  induction lines with
  | nil => rfl
  | cons x xs ih => rw [List.foldl_cons]; exact ih

theorem foldl_parseStep_exc (b : Bool) (lines : List String) :
    lines.foldl (parseStep b) .exc = .exc := by
  induction lines with
  | nil => rfl
  | cons x xs ih => rw [List.foldl_cons]; exact ih

theorem skipLine_of_claim {l : String}
    (h : (pyStrip l).data.isEmpty = true ∨ pyStartsWith (pyStrip l) "#" = true
      ∨ pyStartsWith (pyStrip l) "git+" = true ∨ pyStartsWith (pyStrip l) "hg+" = true
      ∨ pyStartsWith (pyStrip l) "svn+" = true ∨ pyStartsWith (pyStrip l) "bzr+" = true) :
    skipLine (pyStrip l) = true := by
  rcases h with h | h | h | h | h | h <;>
    simp [skipLine, IGNORED_PREFIXES, h]

theorem parseLine_skip (b : Bool) (p : List (String × String)) (w : List String)
    (line : String) (h : skipLine (pyStrip line) = true) :
    parseLine b p w line = .ok p w := by
  simp [parseLine, h]

theorem parseStep_skip (b : Bool) (line : String) (h : skipLine (pyStrip line) = true)
    (st : ParseResult) : parseStep b st line = st := by
  cases st with
  | ok p w => exact parseLine_skip b p w line h
  | exit m => rfl
  | exc => rfl

theorem parse_all_skip (b : Bool) (lines : List String)
    (h : ∀ l ∈ lines, skipLine (pyStrip l) = true) :
    parse_requirements_file lines b = .ok [] [] := by
  unfold parse_requirements_file
  induction lines with
  | nil => rfl
  | cons x xs ih =>
    rw [List.foldl_cons, parseStep_skip b x (h x (by simp))]
    exact ih (fun l hl => h l (by simp [hl]))

/-- Claim C3: a line that is blank after stripping, or starts with a comment
or VCS marker, contributes nothing: deleting it does not change the parse,
the empty manifest parses to the empty mapping, and a manifest of only such
lines parses to the empty mapping with no warnings. -/
theorem c3_skipped_lines_add_no_entry (b : Bool) (pre post : List String) (line : String)
    (h : (pyStrip line).data.isEmpty = true ∨ pyStartsWith (pyStrip line) "#" = true
      ∨ pyStartsWith (pyStrip line) "git+" = true ∨ pyStartsWith (pyStrip line) "hg+" = true
      ∨ pyStartsWith (pyStrip line) "svn+" = true ∨ pyStartsWith (pyStrip line) "bzr+" = true) :
    parse_requirements_file (pre ++ line :: post) b = parse_requirements_file (pre ++ post) b
    ∧ parse_requirements_file [] b = .ok [] []
    ∧ ∀ lines : List String,
        (∀ l ∈ lines, (pyStrip l).data.isEmpty = true ∨ pyStartsWith (pyStrip l) "#" = true
          ∨ pyStartsWith (pyStrip l) "git+" = true ∨ pyStartsWith (pyStrip l) "hg+" = true
          ∨ pyStartsWith (pyStrip l) "svn+" = true ∨ pyStartsWith (pyStrip l) "bzr+" = true) →
        parse_requirements_file lines b = .ok [] [] := by
  refine ⟨?_, rfl, fun lines hall => parse_all_skip b lines
    (fun l hl => skipLine_of_claim (hall l hl))⟩
  unfold parse_requirements_file
  rw [List.foldl_append, List.foldl_append, List.foldl_cons,
    parseStep_skip b line (skipLine_of_claim h)]

theorem c3_witness :
    parse_requirements_file ["a==1", "# comment", "b==2"] false
      = parse_requirements_file ["a==1", "b==2"] false
    ∧ parse_requirements_file [] false = ParseResult.ok [] [] :=
  ⟨(c3_skipped_lines_add_no_entry false ["a==1"] ["b==2"] "# comment"
      (Or.inr (Or.inl (by decide)))).1,
   (c3_skipped_lines_add_no_entry false ["a==1"] ["b==2"] "# comment"
      (Or.inr (Or.inl (by decide)))).2.1⟩

theorem parseLine_unpinned (b : Bool) (p : List (String × String)) (w : List String)
    (line : String) (hskip : skipLine (pyStrip line) = false)
    (hnopin : pySplitEqEq (pyStrip line) = [pyStrip line]) :
    parseLine b p w line =
      if b then .exit (pyStrip line ++ " does not have a valid version number")
      else .ok p (w ++ [pyStrip line ++ " does not have a valid version number"]) := by
  simp [parseLine, hskip, hnopin]

theorem foldl_parseStep_strict_not_ok (line : String)
    (hskip : skipLine (pyStrip line) = false)
    (hnopin : pySplitEqEq (pyStrip line) = [pyStrip line]) :
    ∀ (lines : List String) (st : ParseResult), line ∈ lines →
      ∀ p' w', lines.foldl (parseStep true) st ≠ .ok p' w' := by
  intro lines
  induction lines with
  | nil => intro st h; cases h
  | cons x xs ih =>
    intro st hmem p' w'
    rw [List.foldl_cons]
    rcases List.mem_cons.mp hmem with rfl | hmem'
    · cases st with
      | ok p w =>
        rw [parseStep, parseLine_unpinned true p w line hskip hnopin]
        simp [foldl_parseStep_exit]
      | exit m =>
        have hs : parseStep true (ParseResult.exit m) line = ParseResult.exit m := rfl
        rw [hs, foldl_parseStep_exit]
        exact fun h => ParseResult.noConfusion h
      | exc =>
        have hs : parseStep true ParseResult.exc line = ParseResult.exc := rfl
        rw [hs, foldl_parseStep_exc]
        exact fun h => ParseResult.noConfusion h
    · exact ih (parseStep true st x) hmem' p' w'

/-- Claim C4: a non-skipped line without the pin delimiter is, in strict mode,
an immediate `sys.exit` with a descriptive message, and in lenient mode a
printed warning with no entry added and processing continuing; consequently a
strict run over a manifest containing such a line never returns a mapping. -/
theorem c4_unpinned_line_handling (p : List (String × String)) (w : List String)
    (line : String) (hskip : skipLine (pyStrip line) = false)
    (hnopin : pySplitEqEq (pyStrip line) = [pyStrip line]) :
    parseLine true p w line = .exit (pyStrip line ++ " does not have a valid version number")
    ∧ parseLine false p w line
        = .ok p (w ++ [pyStrip line ++ " does not have a valid version number"])
    ∧ ∀ lines : List String, line ∈ lines →
        ∀ p' w', parse_requirements_file lines true ≠ .ok p' w' := by
  refine ⟨?_, ?_, fun lines hmem p' w' =>
    foldl_parseStep_strict_not_ok line hskip hnopin lines (.ok [] []) hmem p' w'⟩
  · rw [parseLine_unpinned true p w line hskip hnopin]; rfl
  · rw [parseLine_unpinned false p w line hskip hnopin]; rfl

theorem c4_witness :
    parseLine true [] [] "flask" = ParseResult.exit "flask does not have a valid version number"
    ∧ parseLine false [] [] "flask"
        = ParseResult.ok [] ["flask does not have a valid version number"] :=
  ⟨(c4_unpinned_line_handling [] [] "flask" (by decide) (by decide)).1,
   (c4_unpinned_line_handling [] [] "flask" (by decide) (by decide)).2.1⟩

theorem parseLine_multi (b : Bool) (p : List (String × String)) (w : List String)
    (line : String) (hskip : skipLine (pyStrip line) = false)
    (hmulti : 3 ≤ (pySplitEqEq (pyStrip line)).length) :
    parseLine b p w line = .exc := by
  rcases hsplit : pySplitEqEq (pyStrip line) with _ | ⟨x, _ | ⟨y, _ | ⟨z, t⟩⟩⟩
  · rw [hsplit] at hmulti; simp at hmulti
  · rw [hsplit] at hmulti; simp at hmulti
  · rw [hsplit] at hmulti; simp at hmulti
  · simp [parseLine, hskip, hsplit]

/-- Claim C9: a non-skipped line in which the pin delimiter occurs more than
once makes the two-way unpacking of `line.split('==')` raise ValueError, in
both modes: the per-line step raises, and a run that reaches the line ends in
the uncaught exception. -/
theorem c9_double_delimiter_raises (b : Bool) (pre post : List String)
    (p : List (String × String)) (w : List String) (line : String)
    (hskip : skipLine (pyStrip line) = false)
    (hmulti : 3 ≤ (pySplitEqEq (pyStrip line)).length)
    (hpre : parse_requirements_file pre b = .ok p w) :
    parse_requirements_file (pre ++ line :: post) b = .exc
    ∧ ∀ (p' : List (String × String)) (w' : List String), parseLine b p' w' line = .exc := by
  refine ⟨?_, fun p' w' => parseLine_multi b p' w' line hskip hmulti⟩
  unfold parse_requirements_file at hpre ⊢
  rw [List.foldl_append, hpre, List.foldl_cons, parseStep,
    parseLine_multi b p w line hskip hmulti, foldl_parseStep_exc]

theorem c9_witness :
    skipLine (pyStrip "a==b==c") = false
    ∧ parse_requirements_file ["a==b==c"] false = ParseResult.exc :=
  ⟨by decide,
   (c9_double_delimiter_raises false [] [] [] [] "a==b==c" (by decide) (by decide) rfl).1⟩

theorem dictLookup_insert_self (d : List (String × String)) (k v : String) :
    dictLookup k (dictInsert d k v) = some v := by
  unfold dictInsert
  by_cases h : d.any (fun q => q.1 == k) = true
  · rw [if_pos h]
    induction d with
    | nil => simp at h
    | cons q t ih =>
      rw [List.any_cons] at h
      rw [List.map_cons]
      by_cases ha : q.1 = k
      · rw [if_pos ha]
        simp only [dictLookup]
        simp
      · rw [if_neg ha]
        simp only [dictLookup]
        rw [if_neg ha]
        apply ih
        rcases Bool.or_eq_true_iff.mp h with h' | h'
        · exact absurd (by simpa using h') ha
        · exact h'
  · rw [if_neg h]
    induction d with
    | nil =>
      simp only [List.nil_append, dictLookup]
      simp
    | cons q t ih =>
      rw [List.any_cons] at h
      have ha : ¬ q.1 = k := fun hak => h (by simp [hak])
      have ht : ¬ t.any (fun q => q.1 == k) = true := fun htt => h (by simp [htt])
      rw [List.cons_append]
      simp only [dictLookup]
      rw [if_neg ha]
      exact ih ht

theorem dictLookup_map_replace (d : List (String × String)) (k k' v : String)
    (h : k' ≠ k) :
    dictLookup k (d.map (fun q => if q.1 = k' then (k', v) else q)) = dictLookup k d := by
  induction d with
  | nil => rfl
  | cons q t ih =>
    rw [List.map_cons]
    by_cases ha : q.1 = k'
    · rw [if_pos ha]
      simp only [dictLookup]
      rw [if_neg (show ¬ ((k', v) : String × String).1 = k from h),
        if_neg (fun hk => h (ha ▸ hk)), ih]
    · rw [if_neg ha]
      simp only [dictLookup]
      by_cases hak : q.1 = k
      · rw [if_pos hak, if_pos hak]
      · rw [if_neg hak, if_neg hak, ih]

theorem dictLookup_insert_other (d : List (String × String)) (k k' v : String)
    (h : k' ≠ k) :
    dictLookup k (dictInsert d k' v) = dictLookup k d := by
  unfold dictInsert
  by_cases hany : d.any (fun q => q.1 == k') = true
  · rw [if_pos hany, dictLookup_map_replace d k k' v h]
  · rw [if_neg hany]
    induction d with
    | nil =>
      simp only [List.nil_append, dictLookup]
      rw [if_neg (show ¬ ((k', v) : String × String).1 = k from h)]
    | cons q t ih =>
      rw [List.any_cons] at hany
      have ht : ¬ t.any (fun q => q.1 == k') = true := fun htt => hany (by simp [htt])
      rw [List.cons_append]
      simp only [dictLookup]
      by_cases hak : q.1 = k
      · rw [if_pos hak, if_pos hak]
      · rw [if_neg hak, if_neg hak, ih ht]

theorem c8_aux (name : String) (b : Bool) :
    ∀ (lines : List String) (p : List (String × String)) (w : List String)
      (acc : Option String), dictLookup name p = acc →
      ∀ (p' : List (String × String)) (w' : List String),
        lines.foldl (parseStep b) (.ok p w) = .ok p' w' →
        dictLookup name p' = lines.foldl (lastPinStep name) acc := by
  intro lines
  induction lines with
  | nil =>
    intro p w acc hacc p' w' hrun
    rw [List.foldl_nil] at hrun
    cases hrun
    rw [List.foldl_nil]
    exact hacc
  | cons x xs ih =>
    intro p w acc hacc p' w' hrun
    rw [List.foldl_cons] at hrun
    rw [List.foldl_cons]
    by_cases hs : skipLine (pyStrip x) = true
    · rw [parseStep, parseLine_skip b p w x hs] at hrun
      rw [show lastPinStep name acc x = acc from by simp [lastPinStep, hs]]
      exact ih p w acc hacc p' w' hrun
    · rw [Bool.not_eq_true] at hs
      rcases hsplit : pySplitEqEq (pyStrip x) with _ | ⟨n, _ | ⟨v, _ | ⟨z, t⟩⟩⟩
      · rw [parseStep, show parseLine b p w x =
            (if b then ParseResult.exit (pyStrip x ++ " does not have a valid version number")
             else .ok p (w ++ [pyStrip x ++ " does not have a valid version number"]))
            from by simp [parseLine, hs, hsplit]] at hrun
        rw [show lastPinStep name acc x = acc from by simp [lastPinStep, hs, hsplit]]
        cases b with
        | true =>
          rw [if_pos rfl, foldl_parseStep_exit] at hrun
          cases hrun
        | false =>
          rw [if_neg (by simp)] at hrun
          exact ih p _ acc hacc p' w' hrun
      · rw [parseStep, show parseLine b p w x =
            (if b then ParseResult.exit (pyStrip x ++ " does not have a valid version number")
             else .ok p (w ++ [pyStrip x ++ " does not have a valid version number"]))
            from by simp [parseLine, hs, hsplit]] at hrun
        rw [show lastPinStep name acc x = acc from by simp [lastPinStep, hs, hsplit]]
        cases b with
        | true =>
          rw [if_pos rfl, foldl_parseStep_exit] at hrun
          cases hrun
        | false =>
          rw [if_neg (by simp)] at hrun
          exact ih p _ acc hacc p' w' hrun
      · rw [parseStep, show parseLine b p w x = .ok (dictInsert p n v) w
            from by simp [parseLine, hs, hsplit]] at hrun
        rw [show lastPinStep name acc x = (if n = name then some v else acc)
            from by simp [lastPinStep, hs, hsplit]]
        by_cases hn : n = name
        · subst hn
          rw [if_pos rfl]
          exact ih (dictInsert p n v) w (some v) (dictLookup_insert_self p n v) p' w' hrun
        · rw [if_neg hn]
          have : dictLookup name (dictInsert p n v) = acc := by
            rw [dictLookup_insert_other p name n v hn]; exact hacc
          exact ih (dictInsert p n v) w acc this p' w' hrun
      · rw [parseStep, show parseLine b p w x = .exc
            from by simp [parseLine, hs, hsplit], foldl_parseStep_exc] at hrun
        cases hrun

/-- Claim C8: whenever `parse_requirements_file` returns a mapping, looking a
name up in it yields the version of the last pinned line bearing that name,
so a later pin of the same name overwrites an earlier one. -/
theorem c8_last_occurrence_wins (lines : List String) (b : Bool) (name : String)
    (p : List (String × String)) (w : List String)
    (h : parse_requirements_file lines b = .ok p w) :
    dictLookup name p = lastPinnedVersion name lines :=
  c8_aux name b lines [] [] none rfl p w h

theorem c8_witness :
    parse_requirements_file ["pkg==1.0", "pkg==2.0"] false = ParseResult.ok [("pkg", "2.0")] []
    ∧ dictLookup "pkg" [("pkg", "2.0")] = lastPinnedVersion "pkg" ["pkg==1.0", "pkg==2.0"] :=
  ⟨rfl, c8_last_occurrence_wins ["pkg==1.0", "pkg==2.0"] false "pkg" [("pkg", "2.0")] [] rfl⟩

theorem foldl_checkStep_error (client : PyPI) (pv : String) (b : Bool) (e : String)
    (l : List (String × String)) :
    l.foldl (checkStep client pv b) (.error e) = .error e := by
  induction l with
  | nil => rfl
  | cons x xs ih => rw [List.foldl_cons]; exact ih

theorem foldl_checkStep_lenient (client : PyPI) (pv : String) :
    ∀ (l : List (String × String)) (acc : List String),
      l.foldl (checkStep client pv false) (.ok acc)
        = .ok (acc ++ l.filterMap (packageMessage client pv)) := by
  intro l
  induction l with
  | nil => intro acc; simp
  | cons x xs ih =>
    intro acc
    rw [List.foldl_cons]
    cases hm : packageMessage client pv x with
    | none => rw [show checkStep client pv false (.ok acc) x = .ok acc
        from by simp [checkStep, hm], ih, List.filterMap_cons_none hm]
    | some m =>
      rw [show checkStep client pv false (.ok acc) x = .ok (acc ++ [m])
        from by simp [checkStep, hm], ih]
      simp [List.filterMap_cons, hm]

/-- Claim C1: when the pinned release's classifier-derived set contains the
exact target version or its major-version part (the chunk before the first
dot), and the package has releases, the verdict is compatible and nothing is
printed or raised for it. -/
theorem c1_exact_or_major_compatible (client : PyPI)
    (python_version package_name package_version : String)
    (hrel : client.package_releases package_name ≠ [])
    (h : python_version ∈ get_supported_pythons (client.release_data package_name package_version)
      ∨ (pySplitChar '.' python_version).headD ""
          ∈ get_supported_pythons (client.release_data package_name package_version)) :
    checkPackage client python_version package_name package_version = .compatible
    ∧ packageMessage client python_version (package_name, package_version) = none := by
  obtain ⟨latest, rest, hrw⟩ := List.exists_cons_of_ne_nil hrel
  have hcp : checkPackage client python_version package_name package_version = .compatible := by
    unfold checkPackage
    rw [hrw]
    by_cases hmem : python_version
        ∈ get_supported_pythons (client.release_data package_name package_version)
    · simp [hmem]
    · rcases h with h | h
      · exact absurd h hmem
      · have h' : (pySplitChar '.' python_version).head?.getD ""
            ∈ get_supported_pythons (client.release_data package_name package_version) := by
          simpa using h
        simp [hmem, h']
  exact ⟨hcp, by simp [packageMessage, hcp, verdictMessage]⟩

theorem c1_witness :
    checkPackage
      (⟨fun _ _ => ["Programming Language :: Python :: 3.6"], fun _ => ["1.0"]⟩ : PyPI)
      "3.6" "requests" "2.0" = Verdict.compatible
    ∧ packageMessage
      (⟨fun _ _ => ["Programming Language :: Python :: 3.6"], fun _ => ["1.0"]⟩ : PyPI)
      "3.6" ("requests", "2.0") = none :=
  c1_exact_or_major_compatible
    (⟨fun _ _ => ["Programming Language :: Python :: 3.6"], fun _ => ["1.0"]⟩ : PyPI)
    "3.6" "requests" "2.0" (by decide) (Or.inl (by decide))

/-- Claim C5: an empty release list yields the not-available verdict; a strict
run that reaches the package exits with exactly that message, whatever comes
after it, and a lenient run prints it and keeps going through the remaining
packages. -/
theorem c5_no_releases_not_available (client : PyPI)
    (python_version package_name package_version : String)
    (hrel : client.package_releases package_name = []) :
    checkPackage client python_version package_name package_version = .notAvailable
    ∧ (∀ (pre post : List (String × String)) (msgs : List String),
        check_packages client pre python_version true = .ok msgs →
        check_packages client (pre ++ (package_name, package_version) :: post)
            python_version true
          = .error (package_name ++ "=" ++ package_version ++ " not available on pip"))
    ∧ (∀ pre post : List (String × String),
        check_packages client (pre ++ (package_name, package_version) :: post)
            python_version false
          = .ok (pre.filterMap (packageMessage client python_version)
              ++ (package_name ++ "=" ++ package_version ++ " not available on pip")
                :: post.filterMap (packageMessage client python_version))) := by
  have hcp : checkPackage client python_version package_name package_version
      = .notAvailable := by
    unfold checkPackage
    rw [hrel]
  have hmsg : packageMessage client python_version (package_name, package_version)
      = some (package_name ++ "=" ++ package_version ++ " not available on pip") := by
    simp [packageMessage, hcp, verdictMessage]
  refine ⟨hcp, ?_, ?_⟩
  · intro pre post msgs hpre
    unfold check_packages at hpre ⊢
    rw [List.foldl_append, hpre, List.foldl_cons,
      show checkStep client python_version true (.ok msgs) (package_name, package_version)
        = .error (package_name ++ "=" ++ package_version ++ " not available on pip")
      from by simp [checkStep, hmsg], foldl_checkStep_error]
  · intro pre post
    unfold check_packages
    rw [List.foldl_append, foldl_checkStep_lenient client python_version pre [],
      List.foldl_cons,
      show checkStep client python_version false
          (.ok ([] ++ pre.filterMap (packageMessage client python_version)))
          (package_name, package_version)
        = .ok ([] ++ pre.filterMap (packageMessage client python_version)
            ++ [package_name ++ "=" ++ package_version ++ " not available on pip"])
      from by simp [checkStep, hmsg], foldl_checkStep_lenient]
    simp

theorem c5_witness :
    checkPackage (⟨fun _ _ => [], fun _ => []⟩ : PyPI) "3.6" "leftpad" "1.0"
      = Verdict.notAvailable
    ∧ check_packages (⟨fun _ _ => [], fun _ => []⟩ : PyPI) [("leftpad", "1.0")] "3.6" true
      = Except.error "leftpad=1.0 not available on pip" :=
  ⟨(c5_no_releases_not_available (⟨fun _ _ => [], fun _ => []⟩ : PyPI)
      "3.6" "leftpad" "1.0" rfl).1,
   by
    have h := (c5_no_releases_not_available (⟨fun _ _ => [], fun _ => []⟩ : PyPI)
      "3.6" "leftpad" "1.0" rfl).2.1 [] [] [] rfl
    exact h⟩

/-- Claim C6: a package with releases whose pinned classifiers support neither
the exact target nor its major version gets the not-compatible error verdict
when the pinned classifier set is nonempty, and the softer
version-not-specified warning verdict when it is empty; the verdict (hence the
message text) is computed before the strict/lenient branch, identically in
both modes. -/
theorem c6_error_vs_warning_verdict (client : PyPI)
    (python_version package_name package_version : String)
    (hrel : client.package_releases package_name ≠ [])
    (h1 : python_version
      ∉ get_supported_pythons (client.release_data package_name package_version))
    (h2 : (pySplitChar '.' python_version).headD ""
      ∉ get_supported_pythons (client.release_data package_name package_version)) :
    (get_supported_pythons (client.release_data package_name package_version) ≠ [] →
      (checkPackage client python_version package_name package_version).isNotCompatible
        = true)
    ∧ (get_supported_pythons (client.release_data package_name package_version) = [] →
      (checkPackage client python_version package_name package_version).isVersionNotSpecified
        = true) := by
  obtain ⟨latest, rest, hrw⟩ := List.exists_cons_of_ne_nil hrel
  have h2' : (pySplitChar '.' python_version).head?.getD ""
      ∉ get_supported_pythons (client.release_data package_name package_version) := by
    simpa using h2
  constructor
  · intro hne
    unfold checkPackage
    rw [hrw]
    simp [h1, h2', hne, Verdict.isNotCompatible]
  · intro heq
    unfold checkPackage
    rw [hrw]
    simp [h1, h2', heq, Verdict.isVersionNotSpecified]

theorem c6_witness :
    (checkPackage
      (⟨fun _ ver => if ver = "1.0" then ["Programming Language :: Python :: 2.7"]
          else ["Programming Language :: Python :: 3.6"],
        fun _ => ["2.0", "1.0"]⟩ : PyPI) "3.6" "foo" "1.0").isNotCompatible = true
    ∧ (checkPackage
      (⟨fun _ _ => [], fun _ => ["2.0"]⟩ : PyPI) "3.6" "bar" "1.0").isVersionNotSpecified
        = true :=
  ⟨(c6_error_vs_warning_verdict
      (⟨fun _ ver => if ver = "1.0" then ["Programming Language :: Python :: 2.7"]
          else ["Programming Language :: Python :: 3.6"],
        fun _ => ["2.0", "1.0"]⟩ : PyPI) "3.6" "foo" "1.0"
      (by decide) (by decide) (by decide)).1 (by decide),
   (c6_error_vs_warning_verdict (⟨fun _ _ => [], fun _ => ["2.0"]⟩ : PyPI) "3.6" "bar" "1.0"
      (by decide) (by decide) (by decide)).2 rfl⟩

/-- Claim C7: on the non-compatible path the code looks at the first element
of the release list (the newest release) and the failure message carries an
upgrade suffix naming that release exactly when the target version is in the
newest release's classifier-derived set, and the empty suffix otherwise. -/
theorem c7_upgrade_names_newest (client : PyPI)
    (python_version package_name package_version : String)
    (hrel : client.package_releases package_name ≠ [])
    (h1 : python_version
      ∉ get_supported_pythons (client.release_data package_name package_version))
    (h2 : (pySplitChar '.' python_version).headD ""
      ∉ get_supported_pythons (client.release_data package_name package_version)) :
    upgradeHint (checkPackage client python_version package_name package_version)
      = some (if python_version ∈ get_supported_pythons
            (client.release_data package_name ((client.package_releases package_name).headD "")) then
          (if get_supported_pythons (client.release_data package_name package_version) = [] then
            " - update to v" ++ (client.package_releases package_name).headD ""
              ++ " for explicit support"
          else
            " - update to v" ++ (client.package_releases package_name).headD ""
              ++ " for support")
        else "") := by
  obtain ⟨latest, rest, hrw⟩ := List.exists_cons_of_ne_nil hrel
  have h2' : (pySplitChar '.' python_version).head?.getD ""
      ∉ get_supported_pythons (client.release_data package_name package_version) := by
    simpa using h2
  unfold checkPackage
  rw [hrw]
  by_cases hsup : get_supported_pythons (client.release_data package_name package_version) = []
  · by_cases hup : python_version
        ∈ get_supported_pythons (client.release_data package_name latest)
    · simp [h1, h2', hsup, hup, upgradeHint]
    · simp [h1, h2', hsup, hup, upgradeHint]
  · by_cases hup : python_version
        ∈ get_supported_pythons (client.release_data package_name latest)
    · simp [h1, h2', hsup, hup, upgradeHint]
    · simp [h1, h2', hsup, hup, upgradeHint]

theorem c7_witness :
    upgradeHint (checkPackage
      (⟨fun _ ver => if ver = "1.0" then ["Programming Language :: Python :: 2.7"]
          else ["Programming Language :: Python :: 3.6"],
        fun _ => ["2.0", "1.0"]⟩ : PyPI) "3.6" "foo" "1.0")
      = some " - update to v2.0 for support" := by
  have h := c7_upgrade_names_newest
    (⟨fun _ ver => if ver = "1.0" then ["Programming Language :: Python :: 2.7"]
        else ["Programming Language :: Python :: 3.6"],
      fun _ => ["2.0", "1.0"]⟩ : PyPI) "3.6" "foo" "1.0"
    (by decide) (by decide) (by decide)
  simpa using h

theorem get_supported_pythons_step (acc : List String) (classifiers : List String) :
    classifiers.foldl
      (fun versions c =>
        if pyStartsWith c "Programming Language :: Python ::" then
          versions ++ [pyStrip ((pySplitChar ' ' c).getLastD "")]
        else versions) acc
    = acc ++ (classifiers.filter
        (fun c => pyStartsWith c "Programming Language :: Python ::")).map
        (fun c => pyStrip ((pySplitChar ' ' c).getLastD "")) := by
  induction classifiers generalizing acc with
  | nil => simp
  | cons c cs ih =>
    rw [List.foldl_cons, List.filter_cons]
    by_cases hc : pyStartsWith c "Programming Language :: Python ::" = true
    · rw [if_pos hc, if_pos hc, ih]
      simp
    · rw [Bool.not_eq_true] at hc
      rw [if_neg (by simp [hc]), if_neg (by simp [hc]), ih]

/-- Claim C10: `get_supported_pythons` keeps, in order, the stripped last
space-separated chunk of every classifier starting with the Python marker, so
classifiers like the CPython-implementation one or a trailing `:: Only`
qualifier contribute the non-numeric entries CPython and Only. -/
theorem c10_last_token_of_python_classifiers :
    (∀ classifiers : List String,
      get_supported_pythons classifiers
        = (classifiers.filter
            (fun c => pyStartsWith c "Programming Language :: Python ::")).map
            (fun c => pyStrip ((pySplitChar ' ' c).getLastD "")))
    ∧ get_supported_pythons ["Programming Language :: Python :: Implementation :: CPython"]
        = ["CPython"]
    ∧ get_supported_pythons ["Programming Language :: Python :: 3 :: Only"] = ["Only"] :=
  ⟨fun classifiers => by
    unfold get_supported_pythons
    rw [get_supported_pythons_step]
    simp, rfl, rfl⟩

/-- Claim C2 (code bug): the version gate of `main` accepts the argument 2x5,
which is not in literal X.Y form, because the dot in the pattern
`^[2-3].[0-9]$` is the unescaped regex wildcard; the spec-mandated format
rejects it. -/
theorem c2_version_gate_accepts_nondot :
    versionArgAccepted "2x5" = true ∧ specVersionFormat "2x5" = false
    ∧ versionArgAccepted "3.6" = true ∧ specVersionFormat "3.6" = true
    ∧ versionArgAccepted "2.5\n" = true ∧ specVersionFormat "2.5\n" = false :=
  ⟨rfl, rfl, rfl, rfl, rfl, rfl⟩

end Checkmyreqs
